import Mathlib

/-!
Shallow embedding of the `easy-command-runner` pipeline library (`src/cmd.ts`).

Strings handed to and produced by the library are modelled as lists of Unicode
code points (`JsString`); the bytes moving through OS pipes are modelled as
lists of byte values grouped into chunks (`Chunk`, `Chunks`), mirroring the
`data` events a Node stream delivers.  The ambient operating system (spawn
facility, filesystem, ambient environment, current-process stdin) is an
explicit `World` record, so execution of a pipeline is a pure function from a
`World` and a pipeline description to a trace of externally visible events plus
an outcome: resolved, rejected, or crashed.  The crash outcome models Node's
event-emitter rule that an `error` event with no registered listener is an
uncaught exception killing the whole process: the library attaches an `error`
listener only in the four awaiting terminal operations and only to the process
they spawn directly, so a spawn failure of an upstream stage (or of `toFile`'s
tail, spawned inside `getStreams`) crashes rather than rejects; its deferred
`error` emission is queued behind the microtask cascade that still spawns the
remaining downstream stages, and fires before any stream or exit event can
settle the terminal promise.
-/

namespace EasyCmd

/-- A Unicode string as JavaScript sees it: a list of code points. -/
abbrev JsString := List Nat

/-- One `data` chunk of a byte stream. -/
abbrev Chunk := List Nat

/-- A whole byte stream, as the ordered list of chunks it delivers. -/
abbrev Chunks := List Chunk

/-- An environment mapping, as the ordered key/value entries of a JS object. -/
abbrev Env := List (String × String)

/-- Concatenate a list of lists. -/
def joinList : List (List Nat) → List Nat
  | [] => []
  | c :: t => c ++ joinList t

/-- Is `c` a Unicode scalar value (a code point that is not a surrogate)? -/
def isScalar (c : Nat) : Bool :=
  c < 1114112 && (c < 55296 || 57343 < c)

/-- UTF-8 encoding of a single Unicode scalar value. -/
def utf8EncodeChar (c : Nat) : List Nat :=
  if c < 128 then [c]
  else if c < 2048 then [192 + c / 64, 128 + c % 64]
  else if c < 65536 then [224 + c / 4096, 128 + c / 64 % 64, 128 + c % 64]
  else [240 + c / 262144, 128 + c / 4096 % 64, 128 + c / 64 % 64, 128 + c % 64]

/-- UTF-8 encoding of a code-point string, as Node's `Buffer.from(s, "utf8")`. -/
def utf8Encode (cs : JsString) : List Nat :=
  joinList (cs.map utf8EncodeChar)

/-- UTF-8 decoding of a byte list, as Node's `buffer.toString("utf8")`:
invalid sequences become the replacement character `U+FFFD` (65533). -/
def utf8Decode : List Nat → JsString
  | [] => []
  | b :: rest =>
    if b < 128 then b :: utf8Decode rest
    else if b < 194 then 65533 :: utf8Decode rest
    else if b < 224 then
      match rest with
      | [] => [65533]
      | b2 :: rest2 =>
        if 128 ≤ b2 ∧ b2 < 192 then
          ((b - 192) * 64 + (b2 - 128)) :: utf8Decode rest2
        else 65533 :: utf8Decode (b2 :: rest2)
    else if b < 240 then
      match rest with
      | [] => [65533]
      | b2 :: rest2 =>
        if 128 ≤ b2 ∧ b2 < 192 ∧ (b = 224 → 160 ≤ b2) ∧ (b = 237 → b2 < 160) then
          match rest2 with
          | [] => [65533]
          | b3 :: rest3 =>
            if 128 ≤ b3 ∧ b3 < 192 then
              ((b - 224) * 4096 + (b2 - 128) * 64 + (b3 - 128)) :: utf8Decode rest3
            else 65533 :: utf8Decode (b3 :: rest3)
        else 65533 :: utf8Decode (b2 :: rest2)
    else if b < 245 then
      match rest with
      | [] => [65533]
      | b2 :: rest2 =>
        if 128 ≤ b2 ∧ b2 < 192 ∧ (b = 240 → 144 ≤ b2) ∧ (b = 244 → b2 < 144) then
          match rest2 with
          | [] => [65533]
          | b3 :: rest3 =>
            if 128 ≤ b3 ∧ b3 < 192 then
              match rest3 with
              | [] => [65533]
              | b4 :: rest4 =>
                if 128 ≤ b4 ∧ b4 < 192 then
                  ((b - 240) * 262144 + (b2 - 128) * 4096 + (b3 - 128) * 64 + (b4 - 128))
                    :: utf8Decode rest4
                else 65533 :: utf8Decode (b4 :: rest4)
            else 65533 :: utf8Decode (b3 :: rest3)
        else 65533 :: utf8Decode (b2 :: rest2)
    else 65533 :: utf8Decode rest

/-- How `stdoutTxt += chunk` accumulates a stream in `get`/`getAll`: each
chunk is decoded to text on its own and the decoded texts are concatenated. -/
def jsConcatDecode (chs : Chunks) : JsString :=
  joinList (chs.map utf8Decode)

/-! ## Pipeline construction (`cmd`, `.pipe`, `cmd.file`, `cmd.text`, `cmd.stdin`) -/

/-- The configuration-object call shape `{ cmd, cwd?, env? }`. -/
structure CmdConfig where
  cmd : List String
  cwd : Option String
  env : Option Env
deriving Repr, DecidableEq

/-- The `CmdInput` union type: a flat list of strings, or one config object. -/
inductive CmdInput where
  | args (xs : List String)
  | config (c : CmdConfig)
deriving Repr, DecidableEq

/-- Result shape of `parseCommandInput`. -/
structure ParsedInput where
  command : List String
  cwd : Option String
  env : Option Env
deriving Repr, DecidableEq

/-- `parseCommandInput`: a single non-string element is the config object;
everything else is taken verbatim as the command vector (no validation). -/
def parseCommandInput : CmdInput → ParsedInput
  | .config c => ⟨c.cmd, c.cwd, c.env⟩
  | .args xs => ⟨xs, none, none⟩

/-- The `CmdSource` class hierarchy: `CmdFile`, `CmdString`, `CmdStdin`
and `Cmd` itself (the `node` case carries `Cmd`'s four fields). -/
inductive CmdSource where
  | file (path : String)
  | text (text : JsString)
  | stdin
  | node (command : List String) (cwd : Option String)
      (source : Option CmdSource) (env : Option Env)

/-- The `Cmd` class: command vector, optional cwd, optional upstream source,
optional environment overrides. -/
structure CmdT where
  command : List String
  cwd : Option String
  source : Option CmdSource
  env : Option Env

/-- View a `Cmd` as a `CmdSource` (the TS subclass relation). -/
def CmdT.toSource (c : CmdT) : CmdSource :=
  .node c.command c.cwd c.source c.env

/-- `cmd(...)`: build a head `Cmd` with no upstream source. -/
def cmd (i : CmdInput) : CmdT :=
  let p := parseCommandInput i
  ⟨p.command, p.cwd, none, p.env⟩

/-- `CmdSource.pipe(...)`: build a `Cmd` whose source is the receiver. -/
def CmdSource.pipe (s : CmdSource) (i : CmdInput) : CmdT :=
  let p := parseCommandInput i
  ⟨p.command, p.cwd, some s, p.env⟩

/-- `Cmd.pipe(...)` (inherited from `CmdSource`). -/
def CmdT.pipe (c : CmdT) (i : CmdInput) : CmdT :=
  c.toSource.pipe i

/-- `cmd.file(path)`. -/
def cmdFile (path : String) : CmdSource := .file path

/-- `cmd.text(text)`. -/
def cmdText (text : JsString) : CmdSource := .text text

/-- `cmd.stdin()`. -/
def cmdStdin : CmdSource := .stdin

/-- The TS `cmd` function has no `throw` statement and performs no I/O, so its
embedding into `Except` (the honest type for fallible TS code) always
returns `.ok`. -/
def cmdE (i : CmdInput) : Except String CmdT := .ok (cmd i)

/-- Likewise `pipe` never throws: its `Except` embedding always returns `.ok`. -/
def pipeE (s : CmdSource) (i : CmdInput) : Except String CmdT := .ok (s.pipe i)

/-! ## Execution model

The outside world (OS spawn facility, filesystem, ambient process state) is an
explicit record; running a pipeline is then a pure function producing the list
of externally visible events plus an `Except` outcome. -/

/-- What spawning one process does: either the spawn itself fails with an
OS-level diagnostic (e.g. ENOENT), or the process runs and produces stdout
chunks, stderr chunks, and an exit code (`none` models death by signal,
Node's `null` close code). -/
structure ProcOutcome where
  stdoutChunks : Chunks
  stderrChunks : Chunks
  exitCode : Option Nat
deriving Repr, DecidableEq

/-- Result of a `child_process.spawn` call. -/
inductive SpawnResult where
  | fail (msg : String)
  | ok (outcome : ProcOutcome)
deriving Repr, DecidableEq

/-- The ambient world a pipeline executes in. `os` maps a spawn request
(command vector, cwd, resolved environment, bytes arriving on stdin) to its
result; `fs` gives readable file contents (`none` = ENOENT); `fsWrite` says
whether a write stream to a path completes without error. -/
structure World where
  os : List String → Option String → Env → Chunks → SpawnResult
  fs : String → Option Chunks
  fsWrite : String → Bool
  ambientEnv : Env
  stdinChunks : Chunks

/-- The `stdin` slot of a `GetStreamsInput`: a real stream or `"ignore"`. -/
inductive InPolicy where
  | ignore
  | stream (chunks : Chunks)
deriving Repr, DecidableEq

/-- The `stdout`/`stderr` slots of a `GetStreamsInput`:
a real stream (the current process's own stdout/stderr), `"pipe"`, or
`"ignore"`. -/
inductive OutPolicy where
  | pipe
  | ignore
  | inheritStream
deriving Repr, DecidableEq

/-- The `GetStreamsInput` request record. -/
structure GetStreamsInput where
  stdin : InPolicy
  stdout : OutPolicy
  stderr : OutPolicy
deriving Repr, DecidableEq

/-- What a source's `getStreams` returns for `stdout`: a real OS stream
(its chunks) or a synthetic `CmdStringStream` holding literal text. -/
inductive OutStream where
  | real (chunks : Chunks)
  | synthetic (text : JsString)
deriving Repr, DecidableEq

/-- A process handle, as far as the embedding needs it. -/
structure Proc where
  command : List String
  spawn : SpawnResult
deriving Repr, DecidableEq

/-- The chunks a process's stdout pipe delivers.  A failed spawn's stdout
stream carries no bytes; this only describes what flows into a downstream
stdio binding during the synchronous continuation — the unhandled `error`
event of such a spawn is tracked separately (as a pending crash) and fires
before the terminal call can settle. -/
def Proc.stdoutChunks (p : Proc) : Chunks :=
  match p.spawn with
  | .fail _ => []
  | .ok o => o.stdoutChunks

/-- Accumulate the pending unhandled `error` event across the spawns
performed inside `getStreams`.  Spawns happen in upstream-to-downstream
order and their deferred `error` emissions are queued in that order, so the
first failing unlistened spawn is the one whose uncaught exception kills
the process; a later failure never overrides an earlier pending one. -/
def combinePending (pending : Option String) : SpawnResult → Option String
  | .fail msg => match pending with
    | some m => some m
    | none => some msg
  | .ok _ => pending

/-- How one stdio slot of a `spawn` call was bound. -/
inductive Bind where
  | pipe
  | ignore
  | inherit
  | fromStream
deriving Repr, DecidableEq

/-- Externally visible events of one execution, in order. A `spawn` event
records the command vector, the resolved environment handed to the OS, the
three stdio bindings, and the bytes that reach the child's stdin. -/
inductive Event where
  | openRead (path : String)
  | openWrite (path : String)
  | spawn (command : List String) (env : Env)
      (stdinBind stdoutBind stderrBind : Bind) (stdinBytes : Chunks)
deriving Repr, DecidableEq

/-- Errors a terminal operation can reject with. `cmdError` is the library's
`CmdError` class (exit code + failing command vector); `osError` is a raw
OS-level spawn diagnostic passed through unwrapped; `io`/`writeIo` are
filesystem stream errors passed through unwrapped. -/
inductive RunError where
  | io (path : String)
  | writeIo (path : String)
  | osError (msg : String)
  | cmdError (code : Option Nat) (command : List String)
deriving Repr, DecidableEq

/-- How a terminal call ends. A promise either resolves (`ok`) or rejects
(`error`); `crash` models an `error` event emitted on a `ChildProcess` that
has no `error` listener, which Node turns into an uncaught exception that
kills the whole process before the terminal promise can settle.  Only the
four awaiting operations attach an `error` listener, and only on the
process they spawn directly; every process spawned inside `getStreams`
(upstream stages, and `toFile`'s own tail) has none. -/
inductive Result (α : Type) where
  | ok (a : α)
  | error (e : RunError)
  | crash (msg : String)
deriving Repr, DecidableEq

/-- Key lookup in a JS object's entry list (first matching key wins; a JS
object's keys are unique, so this is its property access). -/
def lookupEnv : Env → String → Option String
  | [], _ => none
  | kv :: t, k => if kv.1 = k then some kv.2 else lookupEnv t k

/-- `this.env === undefined ? process.env : { ...process.env, ...this.env }`:
the JS object-spread of `b` over `a` (entries of `a` in order, overridden by
`b` where keys collide, then the remaining entries of `b`). -/
def jsSpread (a b : Env) : Env :=
  a.map (fun kv => (kv.1, match lookupEnv b kv.1 with | some v => v | none => kv.2))
    ++ b.filter (fun kv => (lookupEnv a kv.1).isNone)

/-- The environment actually passed to `child_process.spawn`. -/
def envArg (w : World) (e : Option Env) : Env :=
  match e with
  | none => w.ambientEnv
  | some ov => jsSpread w.ambientEnv ov

/-- Stdio binding used for a head stage's stdin. -/
def bindOfIn : InPolicy → Bind
  | .ignore => .ignore
  | .stream _ => .fromStream

/-- Bytes reaching a head stage's stdin. -/
def bytesOfIn : InPolicy → Chunks
  | .ignore => []
  | .stream chs => chs

/-- Stdio binding used for a stdout/stderr slot. -/
def bindOfOut : OutPolicy → Bind
  | .pipe => .pipe
  | .ignore => .ignore
  | .inheritStream => .inherit

/-- Stdio binding used for stdin when an upstream source is present: a
synthetic `CmdStringStream` forces `"pipe"`, a real stream is bound directly. -/
def bindOfSource : OutStream → Bind
  | .real _ => .fromStream
  | .synthetic _ => .pipe

/-- Bytes reaching stdin from an upstream source. A `CmdStringStream` writes
the UTF-8 bytes of its whole text as one write and then closes the pipe
(`outStream.end(this.text)`). -/
def bytesOfSource : OutStream → Chunks
  | .real chs => chs
  | .synthetic t => [utf8Encode t]

mutual

/-- `CmdSource.getStreams`, resolved against a `World`: the events it causes
plus the resolved stdout stream (or a rejection).  A process node's spawn
happens here without any `error` listener, so a spawn failure contributes a
pending unhandled `error` event (carried alongside the stream, which itself
delivers no bytes) rather than a rejection. -/
def CmdSource.getStreams (w : World) (s : CmdSource) (req : GetStreamsInput) :
    List Event × Except RunError (OutStream × Option String) :=
  match s with
  | .file p =>
    match w.fs p with
    | some chs => ([.openRead p], .ok (.real chs, none))
    | none => ([], .error (.io p))
  | .text t => ([], .ok (.synthetic t, none))
  | .stdin => ([], .ok (.real w.stdinChunks, none))
  | .node c cw srcOpt e =>
    match baseRun w c cw srcOpt e req with
    | (tr, .error err) => (tr, .error err)
    | (tr, .ok (proc, pending)) =>
      (tr, .ok (.real proc.stdoutChunks, combinePending pending proc.spawn))

/-- `Cmd.baseRun`: resolve the upstream source (requesting `stdout: "pipe"`
and propagating the caller's stdin/stderr policies), pick the stdin binding,
and spawn the process.  The returned pending crash is the upstream chain's:
whether this stage's own spawn failure is handled is decided by the caller
(the four awaiting operations attach an `error` listener to it; `getStreams`
does not). -/
def baseRun (w : World) (command : List String) (cwd : Option String)
    (source : Option CmdSource) (env : Option Env) (input : GetStreamsInput) :
    List Event × Except RunError (Proc × Option String) :=
  match source with
  | none =>
    let e := envArg w env
    let bytes := bytesOfIn input.stdin
    ([.spawn command e (bindOfIn input.stdin) (bindOfOut input.stdout)
        (bindOfOut input.stderr) bytes],
     .ok (⟨command, w.os command cwd e bytes⟩, none))
  | some s =>
    match CmdSource.getStreams w s ⟨input.stdin, .pipe, input.stderr⟩ with
    | (tr, .error err) => (tr, .error err)
    | (tr, .ok (out, pending)) =>
      let e := envArg w env
      let bytes := bytesOfSource out
      (tr ++ [.spawn command e (bindOfSource out) (bindOfOut input.stdout)
          (bindOfOut input.stderr) bytes],
       .ok (⟨command, w.os command cwd e bytes⟩, pending))

end

/-- The shared settling logic of the four awaiting terminal runners for the
process they listen to: reject with the raw OS error on its spawn failure,
resolve on exit code `0`, otherwise reject with
`CmdError(code, this.command)`. -/
def awaitProc (command : List String) (p : Proc) : Except RunError ProcOutcome :=
  match p.spawn with
  | .fail msg => .error (.osError msg)
  | .ok o => if o.exitCode = some 0 then .ok o else .error (.cmdError o.exitCode command)

/-- `Cmd.run()`: stdin ignored, stdout/stderr inherited from the current
process; resolves with no value on exit code `0`.  An upstream pending
unhandled `error` event fires (and kills the process) before the tail's
own `error`/`close` events can settle the promise. -/
def CmdT.run (w : World) (c : CmdT) : List Event × Result Unit :=
  match baseRun w c.command c.cwd c.source c.env ⟨.ignore, .inheritStream, .inheritStream⟩ with
  | (tr, .error err) => (tr, .error err)
  | (tr, .ok (proc, pending)) =>
    (tr, match pending with
         | some msg => .crash msg
         | none =>
           match awaitProc c.command proc with
           | .error err => .error err
           | .ok _ => .ok ())

/-- `Cmd.runSilent()`: stdin, stdout and stderr all ignored. -/
def CmdT.runSilent (w : World) (c : CmdT) : List Event × Result Unit :=
  match baseRun w c.command c.cwd c.source c.env ⟨.ignore, .ignore, .ignore⟩ with
  | (tr, .error err) => (tr, .error err)
  | (tr, .ok (proc, pending)) =>
    (tr, match pending with
         | some msg => .crash msg
         | none =>
           match awaitProc c.command proc with
           | .error err => .error err
           | .ok _ => .ok ())

/-- `Cmd.get()`: stdout piped to the caller and accumulated with
`stdoutTxt += chunk`; stdin and stderr ignored. -/
def CmdT.get (w : World) (c : CmdT) : List Event × Result JsString :=
  match baseRun w c.command c.cwd c.source c.env ⟨.ignore, .pipe, .ignore⟩ with
  | (tr, .error err) => (tr, .error err)
  | (tr, .ok (proc, pending)) =>
    (tr, match pending with
         | some msg => .crash msg
         | none =>
           match awaitProc c.command proc with
           | .error err => .error err
           | .ok o => .ok (jsConcatDecode o.stdoutChunks))

/-- The `{ stdout, stderr }` record `Cmd.getAll()` resolves with. -/
structure AllOutput where
  stdout : JsString
  stderr : JsString
deriving Repr, DecidableEq

/-- `Cmd.getAll()`: stdout and stderr both piped to the caller and
accumulated with `+=`; stdin ignored. -/
def CmdT.getAll (w : World) (c : CmdT) : List Event × Result AllOutput :=
  match baseRun w c.command c.cwd c.source c.env ⟨.ignore, .pipe, .pipe⟩ with
  | (tr, .error err) => (tr, .error err)
  | (tr, .ok (proc, pending)) =>
    (tr, match pending with
         | some msg => .crash msg
         | none =>
           match awaitProc c.command proc with
           | .error err => .error err
           | .ok o => .ok ⟨jsConcatDecode o.stdoutChunks, jsConcatDecode o.stderrChunks⟩)

/-- `CmdSource.toFile(path)`: open a write stream, resolve the receiver's
streams with `{stdin: "ignore", stdout: "pipe", stderr: "ignore"}`, pipe
stdout into the write stream, and settle on the write stream's own
`close`/`error` events only — the tail process's exit code is never
consulted, and no process `error` listener is attached, so any spawn
failure in the chain (the tail's included, since its spawn happens inside
`getStreams`) is an unhandled `error` event that kills the process before
the write stream can close. -/
def CmdSource.toFile (w : World) (s : CmdSource) (path : String) :
    List Event × Result Unit :=
  match s.getStreams w ⟨.ignore, .pipe, .ignore⟩ with
  | (tr, .error err) => (Event.openWrite path :: tr, .error err)
  | (tr, .ok (_, pending)) =>
    (Event.openWrite path :: tr,
     match pending with
     | some msg => .crash msg
     | none => if w.fsWrite path then .ok () else .error (.writeIo path))

/-- `Cmd.toFile(path)` (inherited from `CmdSource`). -/
def CmdT.toFile (w : World) (c : CmdT) (path : String) :
    List Event × Result Unit :=
  c.toSource.toFile w path

/-! ## Observation helpers and concrete worlds -/

/-- The head (upstream-most) node of a chain. -/
def headOf : CmdSource → CmdSource
  | .node _ _ (some s) _ => headOf s
  | s => s

/-- The stderr binding a `spawn` event recorded, if the event is a spawn. -/
def stderrBindOf : Event → Option Bind
  | .spawn _ _ _ _ sb _ => some sb
  | _ => none

/-- Is an event a process spawn? -/
def isSpawn : Event → Bool
  | .spawn _ _ _ _ _ _ => true
  | _ => false

/-- The resolved environments of the spawn events of a trace, in order. -/
def spawnEnvs (evs : List Event) : List Env :=
  evs.filterMap fun ev =>
    match ev with
    | .spawn _ e _ _ _ _ => some e
    | _ => none

/-- What `get` resolves to as a function of the tail stage's command data and
the bytes that reach its stdin alone. -/
def tailGetOutcome (w : World) (p : ParsedInput) (bytes : Chunks) :
    Result JsString :=
  match w.os p.command p.cwd (envArg w p.env) bytes with
  | .fail msg => .error (.osError msg)
  | .ok o =>
    if o.exitCode = some 0 then .ok (jsConcatDecode o.stdoutChunks)
    else .error (.cmdError o.exitCode p.command)

/-- `await this.source?.getStreams(...)`: the optional-chaining step at the
top of `baseRun`, as its own function (resolved stream, if any, plus the
chain's pending unhandled `error` event). -/
def resolveOpt (w : World) (srcOpt : Option CmdSource) (req : GetStreamsInput) :
    List Event × Except RunError (Option OutStream × Option String) :=
  match srcOpt with
  | none => ([], .ok (none, none))
  | some s =>
    match CmdSource.getStreams w s req with
    | (tr, .error err) => (tr, .error err)
    | (tr, .ok (out, pending)) => (tr, .ok (some out, pending))

/-- The bytes that reach a stage's stdin, given the request's stdin policy
and the resolved upstream source (if any). -/
def stdinBytesOf (pol : InPolicy) : Option OutStream → Chunks
  | none => bytesOfIn pol
  | some out => bytesOfSource out

/-- The stdin binding of a stage, given the request's stdin policy and the
resolved upstream source (if any). -/
def stdinBindOf (pol : InPolicy) : Option OutStream → Bind
  | none => bindOfIn pol
  | some out => bindOfSource out

instance {ε α : Type} [DecidableEq ε] [DecidableEq α] : DecidableEq (Except ε α) :=
  fun a b =>
    match a, b with
    | .ok x, .ok y =>
      if h : x = y then .isTrue (by rw [h]) else .isFalse (by simp [h])
    | .error x, .error y =>
      if h : x = y then .isTrue (by rw [h]) else .isFalse (by simp [h])
    | .ok _, .error _ => .isFalse (by simp)
    | .error _, .ok _ => .isFalse (by simp)

/-- A world whose only runnable program is `cat`, which relays its stdin
chunks to stdout unchanged and exits `0`. -/
def catWorld : World where
  os := fun c _ _ chs => if c = ["cat"] then .ok ⟨chs, [], some 0⟩ else .fail "ENOENT"
  fs := fun _ => none
  fsWrite := fun _ => true
  ambientEnv := [("HOME", "/root")]
  stdinChunks := []

/-- A world whose only runnable program is `failer`, which writes nothing
and exits with code `3`. -/
def failerWorld : World where
  os := fun c _ _ _ =>
    if c = ["failer"] then .ok ⟨[], [[101, 114, 114, 10]], some 3⟩ else .fail "ENOENT"
  fs := fun _ => none
  fsWrite := fun _ => true
  ambientEnv := []
  stdinChunks := []

/-- A world whose only runnable program is `splitter`, which emits the two
bytes of the UTF-8 encoding of `é` (U+00E9) as two separate stdout chunks
and exits `0`. -/
def splitterWorld : World where
  os := fun c _ _ _ =>
    if c = ["splitter"] then .ok ⟨[[195], [169]], [], some 0⟩ else .fail "ENOENT"
  fs := fun _ => none
  fsWrite := fun _ => true
  ambientEnv := []
  stdinChunks := []

/-- A world where nothing can be spawned and no file exists. -/
def emptyWorld : World where
  os := fun _ _ _ _ => .fail "ENOENT"
  fs := fun _ => none
  fsWrite := fun _ => true
  ambientEnv := []
  stdinChunks := []

/-- A world whose programs are `loud` (writes `out` to stdout and `err` to
stderr, exits `0`) and `noisy` (writes `up` to stderr, emits `hi` on stdout,
exits `1`). -/
def loudWorld : World where
  os := fun c _ _ _ =>
    if c = ["loud"] then .ok ⟨[[111, 117, 116]], [[101, 114, 114]], some 0⟩
    else if c = ["noisy"] then .ok ⟨[[104, 105]], [[117, 112]], some 1⟩
    else .fail "ENOENT"
  fs := fun _ => none
  fsWrite := fun _ => true
  ambientEnv := []
  stdinChunks := []

/-! ## UTF-8 round trip -/

/-- Decoding the UTF-8 encoding of one scalar value peels it off unchanged. -/
theorem utf8EncodeChar_decode (c : Nat) (h : isScalar c = true) (rest : List Nat) :
    utf8Decode (utf8EncodeChar c ++ rest) = c :: utf8Decode rest := by
  have hs : c < 1114112 ∧ (c < 55296 ∨ 57343 < c) := by
    simpa [isScalar, Bool.and_eq_true, Bool.or_eq_true, decide_eq_true_eq] using h
  by_cases h1 : c < 128
  · have hE : utf8EncodeChar c ++ rest = c :: rest := by simp [utf8EncodeChar, h1]
    rw [hE, utf8Decode.eq_def]
    simp [h1]
  · by_cases h2 : c < 2048
    · have e1 : ¬ (192 + c / 64 < 128) := by omega
      have e2 : ¬ (192 + c / 64 < 194) := by omega
      have e3 : 192 + c / 64 < 224 := by omega
      have e4 : 128 ≤ 128 + c % 64 := by omega
      have e5 : 128 + c % 64 < 192 := by omega
      have hE : utf8EncodeChar c ++ rest = (192 + c / 64) :: (128 + c % 64) :: rest := by
        simp [utf8EncodeChar, h1, h2]
      rw [hE, utf8Decode.eq_def]
      simp [e1, e2, e3, e4, e5]
      omega
    · by_cases h3 : c < 65536
      · have e1 : ¬ (224 + c / 4096 < 128) := by omega
        have e2 : ¬ (224 + c / 4096 < 194) := by omega
        have e3 : ¬ (224 + c / 4096 < 224) := by omega
        have e4 : 224 + c / 4096 < 240 := by omega
        have e5 : 128 ≤ 128 + c / 64 % 64 := by omega
        have e6 : 128 + c / 64 % 64 < 192 := by omega
        have e7 : 224 + c / 4096 = 224 → 160 ≤ 128 + c / 64 % 64 := by omega
        have e8 : 224 + c / 4096 = 237 → 128 + c / 64 % 64 < 160 := by omega
        have e9 : 128 ≤ 128 + c % 64 := by omega
        have e10 : 128 + c % 64 < 192 := by omega
        have hE : utf8EncodeChar c ++ rest =
            (224 + c / 4096) :: (128 + c / 64 % 64) :: (128 + c % 64) :: rest := by
          simp [utf8EncodeChar, h1, h2, h3]
        rw [hE, utf8Decode.eq_def]
        simp only [e1, e2, e3, e4, e5, e6, e9, e10, ite_true, ite_false, if_pos,
          if_neg, and_true, true_and, if_true, if_false, and_self]
        rw [if_pos ⟨e7, e8⟩]
        simp only [List.cons.injEq]
        have d1 : c / 64 / 64 = c / 4096 := by
          rw [Nat.div_div_eq_div_mul]
        exact ⟨by omega, trivial⟩
      · have e1 : ¬ (240 + c / 262144 < 128) := by omega
        have e2 : ¬ (240 + c / 262144 < 194) := by omega
        have e3 : ¬ (240 + c / 262144 < 224) := by omega
        have e4 : ¬ (240 + c / 262144 < 240) := by omega
        have e5 : 240 + c / 262144 < 245 := by omega
        have e6 : 128 ≤ 128 + c / 4096 % 64 := by omega
        have e7 : 128 + c / 4096 % 64 < 192 := by omega
        have e8 : 240 + c / 262144 = 240 → 144 ≤ 128 + c / 4096 % 64 := by omega
        have e9 : 240 + c / 262144 = 244 → 128 + c / 4096 % 64 < 144 := by omega
        have e10 : 128 ≤ 128 + c / 64 % 64 := by omega
        have e11 : 128 + c / 64 % 64 < 192 := by omega
        have e12 : 128 ≤ 128 + c % 64 := by omega
        have e13 : 128 + c % 64 < 192 := by omega
        have hE : utf8EncodeChar c ++ rest =
            (240 + c / 262144) :: (128 + c / 4096 % 64) :: (128 + c / 64 % 64) ::
              (128 + c % 64) :: rest := by
          simp [utf8EncodeChar, h1, h2, h3]
        rw [hE, utf8Decode.eq_def]
        simp only [e1, e2, e3, e4, e5, e6, e7, e10, e11, e12, e13, ite_true,
          ite_false, if_pos, if_neg, and_true, true_and, if_true, if_false, and_self]
        rw [if_pos ⟨e8, e9⟩]
        simp only [List.cons.injEq]
        have d1 : c / 64 / 64 = c / 4096 := by
          rw [Nat.div_div_eq_div_mul]
        have d2 : c / 4096 / 64 = c / 262144 := by
          rw [Nat.div_div_eq_div_mul]
        exact ⟨by omega, trivial⟩

/-- Decoding inverts encoding on every string of Unicode scalar values. -/
theorem utf8Decode_encode (cs : JsString) (h : cs.all isScalar = true) :
    utf8Decode (utf8Encode cs) = cs := by
  induction cs with
  | nil => rfl
  | cons c t ih =>
    rw [List.all_cons, Bool.and_eq_true] at h
    have step : utf8Encode (c :: t) = utf8EncodeChar c ++ utf8Encode t := rfl
    rw [step, utf8EncodeChar_decode c h.1, ih h.2]

/-! ## Structural lemmas about stream resolution -/

mutual

/-- The resolved value (not the trace) of `getStreams` depends only on the
request's stdin policy, never on its stdout/stderr policies. -/
theorem getStreams_policy_irrel (w : World) (s : CmdSource) (si : InPolicy)
    (so1 se1 so2 se2 : OutPolicy) :
    (CmdSource.getStreams w s ⟨si, so1, se1⟩).2 =
      (CmdSource.getStreams w s ⟨si, so2, se2⟩).2 := by
  cases s with
  | file p => cases hf : w.fs p <;> simp [CmdSource.getStreams, hf]
  | text t => rfl
  | stdin => rfl
  | node c cw srcOpt e =>
    have h := baseRun_policy_irrel w c cw srcOpt e si so1 se1 so2 se2
    simp only [CmdSource.getStreams]
    rcases h1 : baseRun w c cw srcOpt e ⟨si, so1, se1⟩ with ⟨tr1, r1⟩
    rcases h2 : baseRun w c cw srcOpt e ⟨si, so2, se2⟩ with ⟨tr2, r2⟩
    rw [h1, h2] at h
    simp only at h
    cases r1 <;> cases r2 <;> simp_all

/-- The resolved value of `baseRun` depends only on the request's stdin
policy. -/
theorem baseRun_policy_irrel (w : World) (c : List String) (cw : Option String)
    (srcOpt : Option CmdSource) (e : Option Env) (si : InPolicy)
    (so1 se1 so2 se2 : OutPolicy) :
    (baseRun w c cw srcOpt e ⟨si, so1, se1⟩).2 =
      (baseRun w c cw srcOpt e ⟨si, so2, se2⟩).2 := by
  cases srcOpt with
  | none => rfl
  | some s =>
    have h := getStreams_policy_irrel w s si .pipe se1 .pipe se2
    simp only [baseRun]
    rcases h1 : CmdSource.getStreams w s ⟨si, .pipe, se1⟩ with ⟨tr1, r1⟩
    rcases h2 : CmdSource.getStreams w s ⟨si, .pipe, se2⟩ with ⟨tr2, r2⟩
    rw [h1, h2] at h
    simp only at h
    cases r1 <;> cases r2 <;> simp_all

end

mutual

/-- The only errors stream resolution itself can produce are file-open
errors: an upstream process's spawn failure or exit code is never
surfaced by `getStreams`. -/
theorem getStreams_error_is_io (w : World) (s : CmdSource)
    (req : GetStreamsInput) (err : RunError)
    (h : (CmdSource.getStreams w s req).2 = .error err) : ∃ q, err = .io q := by
  cases s with
  | file p =>
    cases hf : w.fs p <;> simp [CmdSource.getStreams, hf] at h
    · exact ⟨p, h.symm⟩
  | text t => simp [CmdSource.getStreams] at h
  | stdin => simp [CmdSource.getStreams] at h
  | node c cw srcOpt e =>
    simp only [CmdSource.getStreams] at h
    rcases h1 : baseRun w c cw srcOpt e req with ⟨tr, r⟩
    rw [h1] at h
    cases r with
    | error e2 =>
      simp only at h
      cases h
      exact baseRun_error_is_io w c cw srcOpt e req err (by rw [h1])
    | ok proc => simp at h

/-- The only errors `baseRun` can produce are file-open errors. -/
theorem baseRun_error_is_io (w : World) (c : List String) (cw : Option String)
    (srcOpt : Option CmdSource) (e : Option Env) (req : GetStreamsInput)
    (err : RunError)
    (h : (baseRun w c cw srcOpt e req).2 = .error err) : ∃ q, err = .io q := by
  cases srcOpt with
  | none => simp [baseRun] at h
  | some s =>
    simp only [baseRun] at h
    rcases h1 : CmdSource.getStreams w s ⟨req.stdin, .pipe, req.stderr⟩ with ⟨tr, r⟩
    rw [h1] at h
    cases r with
    | error e2 =>
      simp only at h
      cases h
      exact getStreams_error_is_io w s ⟨req.stdin, .pipe, req.stderr⟩ err (by rw [h1])
    | ok out => simp at h

end

mutual

/-- A chain whose head is a file source on a missing path resolves to the
file-open rejection with an empty trace: in particular no process of the
chain is spawned. -/
theorem getStreams_missing_file (w : World) (p : String) (hfs : w.fs p = none)
    (s : CmdSource) (req : GetStreamsInput) (hh : headOf s = .file p) :
    CmdSource.getStreams w s req = ([], .error (.io p)) := by
  cases s with
  | file q =>
    have : q = p := by simpa [headOf] using hh
    subst this
    simp [CmdSource.getStreams, hfs]
  | text t => simp [headOf] at hh
  | stdin => simp [headOf] at hh
  | node c cw srcOpt e =>
    cases srcOpt with
    | none => simp [headOf] at hh
    | some s2 =>
      have hh2 : headOf s2 = .file p := by simpa [headOf] using hh
      have hb := baseRun_missing_file w p hfs c cw s2 e req hh2
      simp [CmdSource.getStreams, hb]

/-- `baseRun` on a stage whose chain head is a missing file rejects before
spawning anything. -/
theorem baseRun_missing_file (w : World) (p : String) (hfs : w.fs p = none)
    (c : List String) (cw : Option String) (s : CmdSource) (e : Option Env)
    (req : GetStreamsInput) (hh : headOf s = .file p) :
    baseRun w c cw (some s) e req = ([], .error (.io p)) := by
  have hg := getStreams_missing_file w p hfs s ⟨req.stdin, .pipe, req.stderr⟩ hh
  simp [baseRun, hg]

end

mutual

/-- Every spawn performed during stream resolution binds its stderr exactly
as the request dictates: the stderr policy is propagated unchanged up the
chain. -/
theorem getStreams_stderr_bind (w : World) (s : CmdSource)
    (req : GetStreamsInput) (ev : Event)
    (hev : ev ∈ (CmdSource.getStreams w s req).1) :
    stderrBindOf ev = none ∨ stderrBindOf ev = some (bindOfOut req.stderr) := by
  cases s with
  | file p =>
    cases hf : w.fs p <;> simp [CmdSource.getStreams, hf] at hev
    · subst hev; exact .inl rfl
  | text t => simp [CmdSource.getStreams] at hev
  | stdin => simp [CmdSource.getStreams] at hev
  | node c cw srcOpt e =>
    simp only [CmdSource.getStreams] at hev
    rcases h1 : baseRun w c cw srcOpt e req with ⟨tr, r⟩
    rw [h1] at hev
    have hb := baseRun_stderr_bind w c cw srcOpt e req ev
    rw [h1] at hb
    cases r <;> simp only at hev <;> exact hb hev

/-- Every spawn performed by `baseRun` binds stderr as the request dictates. -/
theorem baseRun_stderr_bind (w : World) (c : List String) (cw : Option String)
    (srcOpt : Option CmdSource) (e : Option Env) (req : GetStreamsInput)
    (ev : Event) (hev : ev ∈ (baseRun w c cw srcOpt e req).1) :
    stderrBindOf ev = none ∨ stderrBindOf ev = some (bindOfOut req.stderr) := by
  cases srcOpt with
  | none =>
    simp only [baseRun, List.mem_singleton] at hev
    subst hev
    exact .inr rfl
  | some s =>
    simp only [baseRun] at hev
    rcases h1 : CmdSource.getStreams w s ⟨req.stdin, .pipe, req.stderr⟩ with ⟨tr, r⟩
    rw [h1] at hev
    have hg := getStreams_stderr_bind w s ⟨req.stdin, .pipe, req.stderr⟩ ev
    rw [h1] at hg
    cases r with
    | error e2 => exact hg hev
    | ok out =>
      simp only [List.mem_append, List.mem_singleton] at hev
      cases hev with
      | inl hin => exact hg hin
      | inr heq => subst heq; exact .inr rfl

end

/-! ## Environment-merge lemmas -/

/-- Lookup distributes over list append, preferring the left list. -/
theorem lookupEnv_append (l1 l2 : Env) (k : String) :
    lookupEnv (l1 ++ l2) k =
      match lookupEnv l1 k with
      | some v => some v
      | none => lookupEnv l2 k := by
  induction l1 with
  | nil => simp [lookupEnv]
  | cons hd t ih =>
    by_cases hk : hd.1 = k <;> simp [lookupEnv, hk, ih]

/-- Lookup in the overridden copy of `a` built by `jsSpread`. -/
theorem lookupEnv_spread_map (a b : Env) (k : String) :
    lookupEnv (a.map (fun kv =>
        (kv.1, match lookupEnv b kv.1 with | some v => v | none => kv.2))) k =
      match lookupEnv a k with
      | some v => some (match lookupEnv b k with | some v2 => v2 | none => v)
      | none => none := by
  induction a with
  | nil => simp [lookupEnv]
  | cons hd t ih =>
    by_cases hk : hd.1 = k
    · subst hk
      simp [lookupEnv]
    · simp [lookupEnv, hk, ih]

/-- Lookup in the `b`-remainder kept by `jsSpread` when `a` lacks the key. -/
theorem lookupEnv_spread_filter_none (a b : Env) (k : String)
    (ha : lookupEnv a k = none) :
    lookupEnv (b.filter (fun kv => (lookupEnv a kv.1).isNone)) k =
      lookupEnv b k := by
  induction b with
  | nil => rfl
  | cons hd t ih =>
    by_cases hk : hd.1 = k
    · subst hk
      simp [List.filter, ha, lookupEnv]
    · by_cases hmem : (lookupEnv a hd.1).isNone <;>
        simp [List.filter, hmem, lookupEnv, hk, ih]

/-- Spread semantics of `{ ...a, ...b }`: lookup prefers `b`, falling back
to `a`. -/
theorem lookupEnv_jsSpread (a b : Env) (k : String) :
    lookupEnv (jsSpread a b) k =
      match lookupEnv b k with
      | some v => some v
      | none => lookupEnv a k := by
  rw [jsSpread, lookupEnv_append, lookupEnv_spread_map]
  cases ha : lookupEnv a k with
  | some v => cases hb : lookupEnv b k <;> simp
  | none =>
    rw [lookupEnv_spread_filter_none a b k ha]
    cases hb : lookupEnv b k <;> simp

/-- `baseRun` is: resolve the optional source, then spawn with the stdin
binding and bytes the resolved source dictates, passing the chain's pending
unhandled `error` event through. -/
theorem baseRun_eq_resolveOpt (w : World) (c : List String) (cw : Option String)
    (srcOpt : Option CmdSource) (e : Option Env) (input : GetStreamsInput) :
    baseRun w c cw srcOpt e input =
      (match resolveOpt w srcOpt ⟨input.stdin, .pipe, input.stderr⟩ with
       | (tr, .error err) => (tr, .error err)
       | (tr, .ok (outOpt, pending)) =>
         (tr ++ [.spawn c (envArg w e) (stdinBindOf input.stdin outOpt)
             (bindOfOut input.stdout) (bindOfOut input.stderr)
             (stdinBytesOf input.stdin outOpt)],
          .ok (⟨c, w.os c cw (envArg w e) (stdinBytesOf input.stdin outOpt)⟩,
            pending))) := by
  cases srcOpt with
  | none => simp [baseRun, resolveOpt, stdinBindOf, stdinBytesOf]
  | some s =>
    simp only [baseRun, resolveOpt]
    rcases CmdSource.getStreams w s ⟨input.stdin, .pipe, input.stderr⟩ with ⟨tr, r⟩
    rcases r with err | ⟨out, pending⟩ <;> simp [stdinBindOf, stdinBytesOf]

/-- The resolved value of `resolveOpt` depends only on the stdin policy. -/
theorem resolveOpt_policy_irrel (w : World) (srcOpt : Option CmdSource)
    (si : InPolicy) (so1 se1 so2 se2 : OutPolicy) :
    (resolveOpt w srcOpt ⟨si, so1, se1⟩).2 = (resolveOpt w srcOpt ⟨si, so2, se2⟩).2 := by
  cases srcOpt with
  | none => rfl
  | some s =>
    have h := getStreams_policy_irrel w s si so1 se1 so2 se2
    simp only [resolveOpt]
    rcases h1 : CmdSource.getStreams w s ⟨si, so1, se1⟩ with ⟨tr1, r1⟩
    rcases h2 : CmdSource.getStreams w s ⟨si, so2, se2⟩ with ⟨tr2, r2⟩
    rw [h1, h2] at h
    simp only at h
    cases r1 <;> cases r2 <;> simp_all

/-- `baseRun` under a request with stdin ignored, given the resolved source:
the stdout/stderr policies never change the resulting process or the
pending unhandled `error` event. -/
theorem baseRun_resolved (w : World) (c : CmdT) (so se : OutPolicy)
    (outOpt : Option OutStream) (pending : Option String)
    (hres : (resolveOpt w c.source ⟨.ignore, .pipe, .pipe⟩).2 = .ok (outOpt, pending)) :
    (baseRun w c.command c.cwd c.source c.env ⟨.ignore, so, se⟩).2 =
      .ok (⟨c.command, w.os c.command c.cwd (envArg w c.env)
        (stdinBytesOf .ignore outOpt)⟩, pending) := by
  have hir := resolveOpt_policy_irrel w c.source .ignore .pipe .pipe .pipe se
  rw [hres] at hir
  rw [baseRun_eq_resolveOpt]
  rcases h1 : resolveOpt w c.source ⟨.ignore, .pipe, se⟩ with ⟨tr1, r1⟩
  rw [h1] at hir
  simp only at hir
  rw [← hir]

/-- The value each of the four awaiting terminal operations settles with: an
upstream pending unhandled `error` event crashes first; otherwise the tail
spawn's result alone decides. -/
theorem terminal_results (w : World) (c : CmdT) (outOpt : Option OutStream)
    (pending : Option String)
    (hres : (resolveOpt w c.source ⟨.ignore, .pipe, .pipe⟩).2 = .ok (outOpt, pending)) :
    (CmdT.run w c).2 =
      (match pending with
       | some msg => .crash msg
       | none =>
         match awaitProc c.command ⟨c.command, w.os c.command c.cwd (envArg w c.env)
             (stdinBytesOf .ignore outOpt)⟩ with
         | .error err => .error err
         | .ok _ => .ok ()) ∧
    (CmdT.runSilent w c).2 =
      (match pending with
       | some msg => .crash msg
       | none =>
         match awaitProc c.command ⟨c.command, w.os c.command c.cwd (envArg w c.env)
             (stdinBytesOf .ignore outOpt)⟩ with
         | .error err => .error err
         | .ok _ => .ok ()) ∧
    (CmdT.get w c).2 =
      (match pending with
       | some msg => .crash msg
       | none =>
         match awaitProc c.command ⟨c.command, w.os c.command c.cwd (envArg w c.env)
             (stdinBytesOf .ignore outOpt)⟩ with
         | .error err => .error err
         | .ok o => .ok (jsConcatDecode o.stdoutChunks)) ∧
    (CmdT.getAll w c).2 =
      (match pending with
       | some msg => .crash msg
       | none =>
         match awaitProc c.command ⟨c.command, w.os c.command c.cwd (envArg w c.env)
             (stdinBytesOf .ignore outOpt)⟩ with
         | .error err => .error err
         | .ok o => .ok ⟨jsConcatDecode o.stdoutChunks, jsConcatDecode o.stderrChunks⟩) := by
  refine ⟨?_, ?_, ?_, ?_⟩
  · have hb := baseRun_resolved w c .inheritStream .inheritStream outOpt pending hres
    rcases hbr : baseRun w c.command c.cwd c.source c.env
      ⟨.ignore, .inheritStream, .inheritStream⟩ with ⟨tr, r⟩
    rw [hbr] at hb
    simp only at hb
    cases pending <;> simp [CmdT.run, hbr, hb]
  · have hb := baseRun_resolved w c .ignore .ignore outOpt pending hres
    rcases hbr : baseRun w c.command c.cwd c.source c.env
      ⟨.ignore, .ignore, .ignore⟩ with ⟨tr, r⟩
    rw [hbr] at hb
    simp only at hb
    cases pending <;> simp [CmdT.runSilent, hbr, hb]
  · have hb := baseRun_resolved w c .pipe .ignore outOpt pending hres
    rcases hbr : baseRun w c.command c.cwd c.source c.env
      ⟨.ignore, .pipe, .ignore⟩ with ⟨tr, r⟩
    rw [hbr] at hb
    simp only at hb
    cases pending <;> simp [CmdT.get, hbr, hb]
  · have hb := baseRun_resolved w c .pipe .pipe outOpt pending hres
    rcases hbr : baseRun w c.command c.cwd c.source c.env
      ⟨.ignore, .pipe, .pipe⟩ with ⟨tr, r⟩
    rw [hbr] at hb
    simp only at hb
    cases pending <;> simp [CmdT.getAll, hbr, hb]

/-! ## Claims -/

/-- C2, counterexample: calling `cmd` with an empty command vector does not
fail — construction succeeds and yields a node whose command vector is
empty, so "empty vectors are a construction error" is false of the code
(`parseCommandInput` performs no validation at all). -/
theorem C2_counterexample_empty_command_accepted :
    (cmdE (.args [])).isOk = true ∧ (cmd (.args [])).command = [] :=
  ⟨rfl, rfl⟩

/-- C2, amended: pipeline construction performs no I/O and never fails, not
even on an empty command vector; `cmd` and `pipe` always succeed and store
exactly the parsed command vector, cwd and env (an empty command vector is
accepted and only causes a failure later, at spawn time). -/
theorem C2_construction_total (i : CmdInput) (s : CmdSource) :
    (cmdE i).isOk = true ∧ (pipeE s i).isOk = true ∧
    cmd i = ⟨(parseCommandInput i).command, (parseCommandInput i).cwd, none,
      (parseCommandInput i).env⟩ ∧
    s.pipe i = ⟨(parseCommandInput i).command, (parseCommandInput i).cwd, some s,
      (parseCommandInput i).env⟩ :=
  ⟨rfl, rfl, rfl, rfl⟩

/-- C6: in a two-stage pipeline executed with `getAll`, each spawned process
receives the environment resolved from its own stage's overrides alone
(ambient environment when the stage has none, the JS spread of the overrides
over the ambient environment otherwise) — one stage's overrides are never
visible to the other stage — and the merged environment resolves a key to
the override's value when the override defines it, falling back to the
ambient binding otherwise. -/
theorem C6_env_merge_per_stage (w : World) (i1 i2 : CmdInput) (k : String) (e : Env) :
    spawnEnvs (CmdT.getAll w ((cmd i1).pipe i2)).1 =
      [envArg w (parseCommandInput i1).env, envArg w (parseCommandInput i2).env] ∧
    envArg w none = w.ambientEnv ∧
    lookupEnv (envArg w (some e)) k =
      (match lookupEnv e k with
       | some v => some v
       | none => lookupEnv w.ambientEnv k) := by
  refine ⟨rfl, rfl, ?_⟩
  simpa [envArg] using lookupEnv_jsSpread w.ambientEnv e k

/-- C8: each terminal operation issues the stream-binding request of the
spec's table — `run`: stdin ignore, stdout/stderr inherited from the current
process, resolving with no value on exit code `0`; `runSilent`: all three
ignored; `get`: stdout piped to the caller, stdin/stderr ignored; `getAll`:
stdout and stderr both piped to the caller, resolving with `{stdout, stderr}`
decoded as UTF-8 text. -/
theorem C8_stream_bindings (w : World) (i : CmdInput) (o : ProcOutcome)
    (h : w.os (parseCommandInput i).command (parseCommandInput i).cwd
      (envArg w (parseCommandInput i).env) [] = .ok o)
    (h0 : o.exitCode = some 0) :
    (CmdT.run w (cmd i)).1 =
      [.spawn (parseCommandInput i).command (envArg w (parseCommandInput i).env)
        .ignore .inherit .inherit []] ∧
    (CmdT.run w (cmd i)).2 = .ok () ∧
    (CmdT.runSilent w (cmd i)).1 =
      [.spawn (parseCommandInput i).command (envArg w (parseCommandInput i).env)
        .ignore .ignore .ignore []] ∧
    (CmdT.runSilent w (cmd i)).2 = .ok () ∧
    (CmdT.get w (cmd i)).1 =
      [.spawn (parseCommandInput i).command (envArg w (parseCommandInput i).env)
        .ignore .pipe .ignore []] ∧
    (CmdT.getAll w (cmd i)).1 =
      [.spawn (parseCommandInput i).command (envArg w (parseCommandInput i).env)
        .ignore .pipe .pipe []] ∧
    (CmdT.getAll w (cmd i)).2 =
      .ok ⟨jsConcatDecode o.stdoutChunks, jsConcatDecode o.stderrChunks⟩ := by
  refine ⟨rfl, ?_, rfl, ?_, rfl, rfl, ?_⟩ <;>
    simp [CmdT.run, CmdT.runSilent, CmdT.getAll, cmd, baseRun, awaitProc, bytesOfIn,
      h, h0]

/-- C8 witness: in the `cat` world, `cmd("cat")` resolves for `run` and
`getAll` with the promised values. -/
theorem C8_witness :
    (CmdT.run catWorld (cmd (.args ["cat"]))).2 = .ok () ∧
    (CmdT.getAll catWorld (cmd (.args ["cat"]))).2 = .ok ⟨[], []⟩ := by
  have h := C8_stream_bindings catWorld (.args ["cat"]) ⟨[], [], some 0⟩ rfl rfl
  exact ⟨h.2.1, h.2.2.2.2.2.2⟩

/-- C9: a pipeline whose head is a file source on a path that does not exist
rejects every terminal operation with the file I/O error, and no process of
the pipeline is spawned: the traces of `run`, `runSilent`, `get` and
`getAll` are empty, and `toFile`'s trace holds only the opening of the
destination write stream. -/
theorem C9_missing_file_rejects_before_spawn (w : World) (c : CmdT)
    (s : CmdSource) (p outPath : String)
    (hsrc : c.source = some s) (hh : headOf s = .file p) (hfs : w.fs p = none) :
    CmdT.run w c = ([], .error (.io p)) ∧
    CmdT.runSilent w c = ([], .error (.io p)) ∧
    CmdT.get w c = ([], .error (.io p)) ∧
    CmdT.getAll w c = ([], .error (.io p)) ∧
    CmdT.toFile w c outPath = ([.openWrite outPath], .error (.io p)) ∧
    (CmdT.toFile w c outPath).1.filter isSpawn = [] := by
  obtain ⟨cc, cw, csrc, ce⟩ := c
  simp only at hsrc
  subst hsrc
  have hb : ∀ req, baseRun w cc cw (some s) ce req = ([], .error (.io p)) :=
    fun req => baseRun_missing_file w p hfs cc cw s ce req hh
  have hg : CmdSource.getStreams w (.node cc cw (some s) ce)
      ⟨.ignore, .pipe, .ignore⟩ = ([], .error (.io p)) := by
    simp [CmdSource.getStreams, hb]
  refine ⟨?_, ?_, ?_, ?_, ?_, ?_⟩ <;>
    simp [CmdT.run, CmdT.runSilent, CmdT.get, CmdT.getAll, CmdT.toFile,
      CmdSource.toFile, CmdT.toSource, hb, hg, isSpawn]

/-- C9 witness: piping the missing file `nope` into `cat` rejects `get` and
`toFile` with the I/O error and spawns nothing. -/
theorem C9_witness :
    CmdT.get emptyWorld ((cmdFile "nope").pipe (.args ["cat"])) =
      ([], .error (.io "nope")) ∧
    CmdT.toFile emptyWorld ((cmdFile "nope").pipe (.args ["cat"])) "out" =
      ([.openWrite "out"], .error (.io "nope")) := by
  have h := C9_missing_file_rejects_before_spawn emptyWorld
    ((cmdFile "nope").pipe (.args ["cat"])) (cmdFile "nope") "nope" "out"
    rfl rfl rfl
  exact ⟨h.2.2.1, h.2.2.2.2.1⟩

/-- C4, counterexample: an upstream spawn failure is surfaced — it crashes
the whole process — and the operation's outcome does not depend only on the
tail's exit and the bytes that reached it: piping the unspawnable `ghost`
into `cat` and piping the (empty) current-process stdin into `cat` deliver
the same bytes (none) to the same tail command, whose spawn succeeds and
exits `0` in both runs, yet one execution crashes with the unhandled ENOENT
`error` event while the other resolves. -/
theorem C4_counterexample_upstream_spawn_crash :
    (CmdT.get catWorld ((cmd (.args ["ghost"])).pipe (.args ["cat"]))).2 =
      .crash "ENOENT" ∧
    (CmdT.get catWorld (cmdStdin.pipe (.args ["cat"]))).2 = .ok [] ∧
    (CmdT.get catWorld ((cmd (.args ["ghost"])).pipe (.args ["cat"]))).1 =
      [.spawn ["ghost"] [("HOME", "/root")] .ignore .pipe .ignore [],
       .spawn ["cat"] [("HOME", "/root")] .fromStream .pipe .ignore []] ∧
    (CmdT.get catWorld (cmdStdin.pipe (.args ["cat"]))).1 =
      [.spawn ["cat"] [("HOME", "/root")] .fromStream .pipe .ignore []] ∧
    ((Result.crash "ENOENT" : Result JsString) ≠ .ok []) :=
  ⟨rfl, rfl, rfl, rfl, by decide⟩

/-- C4, amended: for every pipeline with more than one stage, the terminal
operation awaits only the tail stage; `get`'s outcome factors through the
upstream chain's resolved stream bytes and pending unhandled spawn failure
plus the tail's own command data, so an upstream stage's non-zero exit is
never surfaced (no upstream exit code appears in the factorisation) and,
absent upstream spawn failures, the outcome depends only on the tail's
spawn result, exit code and the bytes that actually reached it.  An
upstream spawn failure, however, is fatal: its unhandled `error` event
crashes the whole process before the terminal call settles.  The only
errors upstream resolution surfaces as rejections are file-open errors. -/
theorem C4_upstream_exit_invisible_spawn_fatal (w : World) (s : CmdSource)
    (i : CmdInput) :
    (CmdT.get w (s.pipe i)).2 =
      (match (CmdSource.getStreams w s ⟨.ignore, .pipe, .ignore⟩).2 with
       | .error err => .error err
       | .ok (_, some msg) => .crash msg
       | .ok (out, none) =>
         tailGetOutcome w (parseCommandInput i) (bytesOfSource out)) ∧
    (∀ err, (CmdSource.getStreams w s ⟨.ignore, .pipe, .ignore⟩).2 = .error err →
      ∃ q, err = .io q) := by
  constructor
  · rcases hg : CmdSource.getStreams w s ⟨.ignore, .pipe, .ignore⟩ with ⟨tr, r⟩
    simp only [CmdT.get, CmdSource.pipe, baseRun, hg]
    rcases r with err | ⟨out, pending⟩
    · simp
    · cases pending with
      | some msg => simp
      | none =>
        simp only [awaitProc, tailGetOutcome]
        cases ho : w.os (parseCommandInput i).command (parseCommandInput i).cwd
            (envArg w (parseCommandInput i).env) (bytesOfSource out) with
        | fail msg => simp
        | ok o =>
          by_cases h0 : o.exitCode = some 0 <;> simp [h0]
  · intro err h
    exact getStreams_error_is_io w s ⟨.ignore, .pipe, .ignore⟩ err h

/-- C4 witness: the factorisation evaluates at a concrete healthy two-stage
pipeline. -/
theorem C4_witness :
    (CmdT.get catWorld ((cmdText [104, 105]).pipe (.args ["cat"]))).2 =
      .ok [104, 105] :=
  ((C4_upstream_exit_invisible_spawn_fatal catWorld (cmdText [104, 105])
    (.args ["cat"])).1).trans (by rfl)

/-- C1, counterexample: with the tail process exiting with code `3`,
`toFile` resolves successfully instead of rejecting — `toFile` settles on
the destination write stream's events alone and never consults the exit
code, so the claim is false for `toFile`. -/
theorem C1_counterexample_toFile_ignores_exit :
    failerWorld.os ["failer"] none [] [] =
      .ok ⟨[], [[101, 114, 114, 10]], some 3⟩ ∧
    CmdT.toFile failerWorld (cmd (.args ["failer"])) "out" =
      ([.openWrite "out", .spawn ["failer"] [] .ignore .pipe .ignore []], .ok ()) :=
  ⟨rfl, rfl⟩

/-- C1, amended: when the tail process exits with a code `N ≠ 0`, the four
awaiting terminal operations — `run`, `runSilent`, `get` and `getAll`, but
not `toFile` — reject with the pipeline error carrying code `N` and the
tail stage's command vector. -/
theorem C1_nonzero_exit_rejects (w : World) (c : CmdT) (outOpt : Option OutStream)
    (o : ProcOutcome) (n : Nat)
    (hres : (resolveOpt w c.source ⟨.ignore, .pipe, .pipe⟩).2 = .ok (outOpt, none))
    (ht : w.os c.command c.cwd (envArg w c.env) (stdinBytesOf .ignore outOpt) = .ok o)
    (hn : o.exitCode = some n) (hz : n ≠ 0) :
    (CmdT.run w c).2 = .error (.cmdError (some n) c.command) ∧
    (CmdT.runSilent w c).2 = .error (.cmdError (some n) c.command) ∧
    (CmdT.get w c).2 = .error (.cmdError (some n) c.command) ∧
    (CmdT.getAll w c).2 = .error (.cmdError (some n) c.command) := by
  have hterm := terminal_results w c outOpt none hres
  have ha : awaitProc c.command ⟨c.command, w.os c.command c.cwd (envArg w c.env)
      (stdinBytesOf .ignore outOpt)⟩ = .error (.cmdError (some n) c.command) := by
    simp [awaitProc, ht, hn, hz]
  rw [ha] at hterm
  exact ⟨hterm.1, hterm.2.1, hterm.2.2.1, hterm.2.2.2⟩

/-- C1 witness: in the `failer` world every awaiting operation rejects with
the pipeline error carrying code `3` and `["failer"]`. -/
theorem C1_witness :
    (CmdT.run failerWorld (cmd (.args ["failer"]))).2 =
      .error (.cmdError (some 3) ["failer"]) ∧
    (CmdT.getAll failerWorld (cmd (.args ["failer"]))).2 =
      .error (.cmdError (some 3) ["failer"]) := by
  have h := C1_nonzero_exit_rejects failerWorld (cmd (.args ["failer"])) none
    ⟨[], [[101, 114, 114, 10]], some 3⟩ 3 rfl rfl rfl (by decide)
  exact ⟨h.1, h.2.2.2⟩

/-- C3, counterexample: a two-byte UTF-8 character delivered as two separate
chunks is not decoded once after the stream ends — `get` decodes each chunk
on its own (`stdoutTxt += chunk`), yielding two replacement characters
instead of `é`, so the claim's decode-once description is false. -/
theorem C3_counterexample_split_codepoint :
    splitterWorld.os ["splitter"] none [] [] = .ok ⟨[[195], [169]], [], some 0⟩ ∧
    (CmdT.get splitterWorld (cmd (.args ["splitter"]))).2 = .ok [65533, 65533] ∧
    utf8Decode (joinList [[195], [169]]) = [233] ∧
    (Except.ok [65533, 65533] : Except RunError JsString) ≠ .ok [233] :=
  ⟨rfl, rfl, rfl, by decide⟩

/-- C3, amended: `get`/`getAll` accumulate the stream's chunks exactly as
received, with no trimming or newline normalization, but each chunk is
decoded as UTF-8 independently on receipt and the decoded texts are
concatenated — so a multi-byte character split across two chunks decodes to
replacement characters rather than the original character. -/
theorem C3_per_chunk_decode (w : World) (c : CmdT) (outOpt : Option OutStream)
    (o : ProcOutcome)
    (hres : (resolveOpt w c.source ⟨.ignore, .pipe, .pipe⟩).2 = .ok (outOpt, none))
    (ht : w.os c.command c.cwd (envArg w c.env) (stdinBytesOf .ignore outOpt) = .ok o)
    (h0 : o.exitCode = some 0) :
    (CmdT.get w c).2 = .ok (jsConcatDecode o.stdoutChunks) ∧
    (CmdT.getAll w c).2 =
      .ok ⟨jsConcatDecode o.stdoutChunks, jsConcatDecode o.stderrChunks⟩ := by
  have hterm := terminal_results w c outOpt none hres
  have ha : awaitProc c.command ⟨c.command, w.os c.command c.cwd (envArg w c.env)
      (stdinBytesOf .ignore outOpt)⟩ = .ok o := by
    simp [awaitProc, ht, h0]
  rw [ha] at hterm
  exact ⟨hterm.2.2.1, hterm.2.2.2⟩

/-- C3 witness: the amended description evaluates on the `splitter` world. -/
theorem C3_witness :
    (CmdT.get splitterWorld (cmd (.args ["splitter"]))).2 = .ok [65533, 65533] :=
  (C3_per_chunk_decode splitterWorld (cmd (.args ["splitter"])) none
    ⟨[[195], [169]], [], some 0⟩ rfl rfl rfl).1.trans (by rfl)

/-- C5, counterexample: when the tail executable cannot be spawned, `toFile`
does not reject with the OS-level error — or at all.  Its tail process is
spawned inside `getStreams` and gets no `error` listener, so the deferred
ENOENT `error` event is an uncaught exception that kills the whole process
before the write stream can close: the execution crashes instead of
rejecting, falsifying the claim for `toFile`. -/
theorem C5_counterexample_toFile_spawn_failure :
    emptyWorld.os ["ghost"] none [] [] = .fail "ENOENT" ∧
    CmdT.toFile emptyWorld (cmd (.args ["ghost"])) "out" =
      ([.openWrite "out", .spawn ["ghost"] [] .ignore .pipe .ignore []],
        .crash "ENOENT") ∧
    ((Result.crash "ENOENT" : Result Unit) ≠ .error (.osError "ENOENT")) :=
  ⟨rfl, rfl, by decide⟩

/-- C5, amended: when the tail stage's executable cannot be spawned, the
four awaiting terminal operations — `run`, `runSilent`, `get` and `getAll`
— reject with the OS-level diagnostic itself, which is not the pipeline
error type and carries no exit code; `toFile`, which attaches no process
`error` listener, instead crashes the whole process with that unhandled
`error` event and never settles. -/
theorem C5_spawn_failure_raw_error (w : World) (c : CmdT)
    (outOpt : Option OutStream) (msg : String) (path : String)
    (hres : (resolveOpt w c.source ⟨.ignore, .pipe, .pipe⟩).2 = .ok (outOpt, none))
    (ht : w.os c.command c.cwd (envArg w c.env) (stdinBytesOf .ignore outOpt) =
      .fail msg) :
    (CmdT.run w c).2 = .error (.osError msg) ∧
    (CmdT.runSilent w c).2 = .error (.osError msg) ∧
    (CmdT.get w c).2 = .error (.osError msg) ∧
    (CmdT.getAll w c).2 = .error (.osError msg) ∧
    (∀ code cv, (RunError.osError msg) ≠ .cmdError code cv) ∧
    (CmdT.toFile w c path).2 = .crash msg := by
  have hterm := terminal_results w c outOpt none hres
  have ha : awaitProc c.command ⟨c.command, w.os c.command c.cwd (envArg w c.env)
      (stdinBytesOf .ignore outOpt)⟩ = .error (.osError msg) := by
    simp [awaitProc, ht]
  rw [ha] at hterm
  refine ⟨hterm.1, hterm.2.1, hterm.2.2.1, hterm.2.2.2, fun code cv => by simp, ?_⟩
  have hb := baseRun_resolved w c .pipe .ignore outOpt none hres
  rcases hbr : baseRun w c.command c.cwd c.source c.env
    ⟨.ignore, .pipe, .ignore⟩ with ⟨tr, r⟩
  rw [hbr] at hb
  simp only at hb
  simp [CmdT.toFile, CmdSource.toFile, CmdT.toSource, CmdSource.getStreams, hbr,
    hb, combinePending, ht]

/-- C5 witness: in the empty world, `run` and `get` on a missing executable
reject with the raw ENOENT diagnostic, while `toFile` crashes. -/
theorem C5_witness :
    (CmdT.run emptyWorld (cmd (.args ["ghost"]))).2 = .error (.osError "ENOENT") ∧
    (CmdT.get emptyWorld (cmd (.args ["ghost"]))).2 = .error (.osError "ENOENT") ∧
    (CmdT.toFile emptyWorld (cmd (.args ["ghost"])) "out").2 = .crash "ENOENT" := by
  have h := C5_spawn_failure_raw_error emptyWorld (cmd (.args ["ghost"])) none
    "ENOENT" "out" rfl rfl
  exact ⟨h.1, h.2.2.1, h.2.2.2.2.2⟩

/-- C7: in any world where `cat` relays its stdin to stdout and exits `0`,
`cmd.text(T).pipe("cat").get()` resolves to exactly `T` — byte for byte,
with no trailing-newline insertion — and chaining is associative in effect:
the two-`cat` chain also resolves to `T`.  The text source writes the whole
encoded text as a single write into the downstream stdin pipe (the spawn
event's stdin is bound to a pipe and receives the one chunk
`utf8Encode T`), and no filesystem event occurs. -/
theorem C7_text_pipe_cat_identity (w : World) (t : JsString)
    (hcat : ∀ cw e chs, w.os ["cat"] cw e chs = .ok ⟨chs, [], some 0⟩)
    (hval : t.all isScalar = true) :
    (CmdT.get w ((cmdText t).pipe (.args ["cat"]))).2 = .ok t ∧
    (CmdT.get w (((cmdText t).pipe (.args ["cat"])).pipe (.args ["cat"]))).2 =
      .ok t ∧
    (CmdT.get w ((cmdText t).pipe (.args ["cat"]))).1 =
      [.spawn ["cat"] w.ambientEnv .pipe .pipe .ignore [utf8Encode t]] := by
  have hdec : jsConcatDecode [utf8Encode t] = t := by
    simp [jsConcatDecode, joinList, utf8Decode_encode t hval]
  refine ⟨?_, ?_, ?_⟩
  · simp [CmdT.get, CmdSource.pipe, CmdT.pipe, CmdT.toSource, cmdText, baseRun,
      CmdSource.getStreams, bytesOfSource, awaitProc, parseCommandInput, envArg,
      combinePending, hcat, hdec]
  · simp [CmdT.get, CmdSource.pipe, CmdT.pipe, CmdT.toSource, cmdText, baseRun,
      CmdSource.getStreams, bytesOfSource, awaitProc, Proc.stdoutChunks,
      parseCommandInput, envArg, combinePending, hcat, hdec]
  · simp [CmdT.get, CmdSource.pipe, CmdT.pipe, CmdT.toSource, cmdText, baseRun,
      CmdSource.getStreams, bytesOfSource, bindOfSource, bindOfOut,
      parseCommandInput, envArg, combinePending, hcat]

/-- C7 witness: `cmd.text("bananas").pipe("cat").get()` and the two-`cat`
chain both resolve to `"bananas"` in the `cat` world. -/
theorem C7_witness :
    (CmdT.get catWorld
        ((cmdText [98, 97, 110, 97, 110, 97, 115]).pipe (.args ["cat"]))).2 =
      .ok [98, 97, 110, 97, 110, 97, 115] ∧
    (CmdT.get catWorld
        (((cmdText [98, 97, 110, 97, 110, 97, 115]).pipe
          (.args ["cat"])).pipe (.args ["cat"]))).2 =
      .ok [98, 97, 110, 97, 110, 97, 115] := by
  have h := C7_text_pipe_cat_identity catWorld [98, 97, 110, 97, 110, 97, 115]
    (fun _ _ _ => rfl) (by decide)
  exact ⟨h.1, h.2.1⟩

/-- C10: in a multi-stage `getAll`, the stderr of the result contains only
what the tail stage wrote to stderr (the resolved outcome `o` of the tail
alone determines the result), and every upstream spawn has its stderr bound
to a pipe — the request's stderr policy is propagated unchanged up the
chain — which is never read, so upstream stderr output is discarded. -/
theorem C10_getAll_stderr_tail_only (w : World) (s : CmdSource) (i : CmdInput)
    (out : OutStream) (o : ProcOutcome) (trs : List Event)
    (hs : CmdSource.getStreams w s ⟨.ignore, .pipe, .pipe⟩ = (trs, .ok (out, none)))
    (ht : w.os (parseCommandInput i).command (parseCommandInput i).cwd
        (envArg w (parseCommandInput i).env) (bytesOfSource out) = .ok o)
    (h0 : o.exitCode = some 0) :
    (CmdT.getAll w (s.pipe i)).2 =
      .ok ⟨jsConcatDecode o.stdoutChunks, jsConcatDecode o.stderrChunks⟩ ∧
    (∀ ev ∈ (CmdT.getAll w (s.pipe i)).1,
      stderrBindOf ev = none ∨ stderrBindOf ev = some .pipe) := by
  constructor
  · simp only [CmdT.getAll, CmdSource.pipe, baseRun, hs]
    simp [awaitProc, ht, h0]
  · intro ev hev
    simp only [CmdT.getAll, CmdSource.pipe, baseRun, hs] at hev
    simp only [List.mem_append, List.mem_singleton] at hev
    cases hev with
    | inl hin =>
      have hb := getStreams_stderr_bind w s ⟨.ignore, .pipe, .pipe⟩ ev
        (by rw [hs]; exact hin)
      simpa [bindOfOut] using hb
    | inr heq =>
      subst heq
      exact .inr rfl

/-- C10 witness: `noisy` (exit 1, stderr `up`) piped into `loud` yields
exactly `loud`'s stdout/stderr; the upstream stderr never appears. -/
theorem C10_witness :
    (CmdT.getAll loudWorld ((cmd (.args ["noisy"])).pipe (.args ["loud"]))).2 =
      .ok ⟨[111, 117, 116], [101, 114, 114]⟩ := by
  have h := C10_getAll_stderr_tail_only loudWorld
    (CmdT.toSource (cmd (.args ["noisy"]))) (.args ["loud"])
    (.real [[104, 105]]) ⟨[[111, 117, 116]], [[101, 114, 114]], some 0⟩
    [.spawn ["noisy"] [] .ignore .pipe .pipe []] rfl rfl rfl
  exact h.1.trans (by rfl)

end EasyCmd
